import Mathlib

/-!
Verification of the Network-Analyzer capture/aggregation pipeline.

This development shallowly embeds the C++ sources:
  * `network_monitor.cpp` (`NetworkMonitor::packetHandler`, the frame decoder),
  * `dashboard.cpp` / `dashboard.h` (`Dashboard::updatePacket`, the renderer
    helpers `displayTrafficStats` and `displayTopConnections`,
    `ConnectionInfo::operator<`),
  * `multi_monitor.cpp` (`MultiMonitor::captureThread`) and the
    `NetworkMonitor` constructor.

`std::map` is embedded as an association list kept sorted in strictly
ascending key order (the iteration order of `std::map`).  Machine counters
(`size_t`) are embedded as `Nat`: the counters only grow by one packet /
one frame length per call, so 64-bit wrap-around is unreachable for any
realistic execution and is not modelled.
-/

namespace NetworkAnalyzer

/-- Embeds `struct PacketInfo` (network_monitor.h): one decoded frame.
`source_port`, `dest_port` and `length` are C++ `int`s that only ever
receive non-negative values (`ntohs` results, `0`, `pkthdr->len`), so they
are embedded as `Nat`. -/
structure PacketInfo where
  source_ip : String
  dest_ip : String
  source_port : Nat
  dest_port : Nat
  protocol : String
  length : Nat
  interface : String
  deriving Repr, DecidableEq

/-- Embeds `struct ConnectionInfo` (dashboard.h) restricted to the five fields that
`ConnectionInfo::operator<` compares; the two remaining fields
(`packet_count`, `total_bytes`) never participate in the map ordering and
are left uninitialized by `Dashboard::updatePacket`, so map keys are
determined by these five fields alone. -/
structure ConnectionInfo where
  source_ip : String
  dest_ip : String
  source_port : Nat
  dest_port : Nat
  protocol : String
  deriving Repr, DecidableEq

/-- Embeds `std::string::operator<`: lexicographic character comparison,
embedded on the character list of the string (definitionally the same
order as `String.lt`, see `strLt_iff`).  Key order of the two protocol
maps in dashboard.h and of the string fields of
`ConnectionInfo::operator<`. -/
def strLt (a b : String) : Bool := decide (a.data < b.data)

/-- Embeds `operator<` on the integer fields of `ConnectionInfo`. -/
def natLt (a b : Nat) : Bool := decide (a < b)

/-- One stage of a lexicographic comparison: mirrors the pattern
`if (f a != f b) return f a < f b;` used by `ConnectionInfo::operator<`,
falling through to `g` when the projections are equal. -/
def lexIf {γ α : Type} [DecidableEq α]
    (f : γ → α) (flt : α → α → Bool) (g : γ → γ → Bool) (a b : γ) : Bool :=
  if f a ≠ f b then flt (f a) (f b) else g a b

/-- Embeds `ConnectionInfo::operator<` (dashboard.h lines 102-108): lexicographic
comparison of `source_ip`, `dest_ip`, `source_port`, `dest_port`,
`protocol`. -/
def connLt : ConnectionInfo → ConnectionInfo → Bool :=
  lexIf ConnectionInfo.source_ip strLt <|
  lexIf ConnectionInfo.dest_ip strLt <|
  lexIf ConnectionInfo.source_port natLt <|
  lexIf ConnectionInfo.dest_port natLt <|
  fun a b => strLt a.protocol b.protocol

section SortedMap

variable {α : Type} [DecidableEq α]

/-- Embeds `std::map<K, size_t>` as a key-sorted association list.
`mapBump lt k d l` is `m[k] += d` (with `operator[]` default-constructing
the value to `0`): the entry for `k` is incremented in place if present and
inserted at its ordered position (the position `std::map` keeps it at)
otherwise. -/
def mapBump (lt : α → α → Bool) (k : α) (d : Nat) :
    List (α × Nat) → List (α × Nat)
  | [] => [(k, d)]
  | (k₀, v) :: rest =>
    if k = k₀ then (k₀, v + d) :: rest
    else if lt k k₀ then (k, d) :: (k₀, v) :: rest
    else (k₀, v) :: mapBump lt k d rest

/-- Embeds `m.find(k)` on the association-list embedding of `std::map`. -/
def mapFind (l : List (α × Nat)) (k : α) : Option Nat :=
  match l with
  | [] => none
  | (k₀, v) :: rest => if k = k₀ then some v else mapFind rest k

/-- Sum of the values of a map, i.e. `sum(m.values())`. -/
def sumVals (l : List (α × Nat)) : Nat :=
  (l.map Prod.snd).sum

end SortedMap

/-- Embeds the aggregate state of `class Dashboard` (dashboard.h): the five counter
families.  The `std::map` members are embedded as key-sorted association
lists; the timing members (`start_time`, `last_update`) carry no counter
state and are omitted. -/
structure Dashboard where
  protocol_counts : List (String × Nat)
  protocol_bytes : List (String × Nat)
  connections : List (ConnectionInfo × Nat)
  total_packets : Nat
  total_bytes : Nat
  deriving Repr, DecidableEq

/-- Embeds `Dashboard::Dashboard()` (dashboard.cpp line 16): zero counters, empty
maps. -/
def Dashboard.init : Dashboard :=
  { protocol_counts := []
    protocol_bytes := []
    connections := []
    total_packets := 0
    total_bytes := 0 }

/-- Builds the `ConnectionInfo` key a `PacketInfo` is tracked under by
`Dashboard::updatePacket` (dashboard.cpp lines 34-39). -/
def connKeyOf (info : PacketInfo) : ConnectionInfo :=
  { source_ip := info.source_ip
    dest_ip := info.dest_ip
    source_port := info.source_port
    dest_port := info.dest_port
    protocol := info.protocol }

/-- Embeds `Dashboard::updatePacket` (dashboard.cpp lines 25-49): increments
`total_packets`, adds the frame length to `total_bytes`, bumps the two
protocol maps, and increments (or inserts with count 1) the connection
entry. -/
def Dashboard.updatePacket (d : Dashboard) (info : PacketInfo) : Dashboard :=
  { protocol_counts := mapBump strLt info.protocol 1 d.protocol_counts
    protocol_bytes := mapBump strLt info.protocol info.length d.protocol_bytes
    connections := mapBump connLt (connKeyOf info) 1 d.connections
    total_packets := d.total_packets + 1
    total_bytes := d.total_bytes + info.length }

/-- Sequential replay of `updatePacket` over a list of records, starting
from the freshly constructed dashboard. -/
def recordAll (rs : List PacketInfo) : Dashboard :=
  rs.foldl Dashboard.updatePacket Dashboard.init

/-- Embeds the `if (duration == 0) duration = 1;` guard of
`Dashboard::displayTrafficStats` (dashboard.cpp line 171): the elapsed
seconds used as divisor of the rate computations. -/
def effectiveDuration (elapsed : Nat) : Nat :=
  if elapsed = 0 then 1 else elapsed

/-- Embeds the `packets_per_sec` computation of
`Dashboard::displayTrafficStats` (dashboard.cpp line 173); the `double`
division is embedded as exact rational division. -/
def packetsPerSec (d : Dashboard) (elapsed : Nat) : Rat :=
  (d.total_packets : Rat) / (effectiveDuration elapsed : Rat)

/-- Embeds the `bytes_per_sec` computation of
`Dashboard::displayTrafficStats` (dashboard.cpp line 174). -/
def bytesPerSec (d : Dashboard) (elapsed : Nat) : Rat :=
  (d.total_bytes : Rat) / (effectiveDuration elapsed : Rat)

/-- Stable insertion of one entry into a count-descending list: the entry
is placed before the first element whose count does not exceed it. -/
def insertByCount (x : ConnectionInfo × Nat) :
    List (ConnectionInfo × Nat) → List (ConnectionInfo × Nat)
  | [] => [x]
  | y :: rest => if y.2 ≤ x.2 then x :: y :: rest else y :: insertByCount x rest

/-- Embeds the `std::sort(conn_vec, a.second > b.second)` call of
`Dashboard::displayTopConnections` (dashboard.cpp lines 199-203) as a
stable sort (insertion sort) of the map's key-ordered entry list by
descending packet count.  `std::sort` leaves the relative order of tied
elements unspecified; this embedding fixes the stable outcome, the one
most favorable to the spec's determinism claim. -/
def sortByCount : List (ConnectionInfo × Nat) → List (ConnectionInfo × Nat)
  | [] => []
  | x :: rest => insertByCount x (sortByCount rest)

/-- Embeds the display loop of `Dashboard::displayTopConnections`
(dashboard.cpp lines 206-219): the first ten entries of the sorted
vector. -/
def topConnections (d : Dashboard) : List (ConnectionInfo × Nat) :=
  (sortByCount d.connections).take 10

/-- Access to one byte of the captured frame.  `none` means the index is
at or past `captureLength`: the C++ code has no bounds check, so such an
access is an out-of-bounds read of the capture buffer. -/
def byteAt (frame : List Nat) (i : Nat) : Option Nat :=
  frame[i]?

/-- Big-endian 16-bit read (`ntohs` of a 2-byte field) at offset `i`. -/
def be16 (frame : List Nat) (i : Nat) : Option Nat := do
  let hi ← byteAt frame i
  let lo ← byteAt frame (i + 1)
  pure (hi * 256 + lo)

/-- Embeds `inet_ntoa`: dotted-quad rendering of four address bytes. -/
def ipToString (b0 b1 b2 b3 : Nat) : String :=
  toString b0 ++ "." ++ toString b1 ++ "." ++ toString b2 ++ "." ++ toString b3

/-- Embeds `NetworkMonitor::packetHandler` (network_monitor.cpp lines
188-233).  `frame` is the captured buffer (`caplen` valid bytes),
`wirelen` is `pkthdr->len`.  The handler reads, with no bounds check of
any kind: the IP header-length nibble at offset 14, the protocol tag at
offset 23, the source and destination addresses at offsets 26-33, and for
TCP (tag 6) and UDP (tag 17) the two big-endian port words at offsets
`14 + 4*ip_hl` and `14 + 4*ip_hl + 2`.  A `none` result means the C++
code dereferenced a byte at or past `captureLength` (an out-of-bounds
read); the source has no `DecodeError` or any other error path. -/
def packetHandlerDecode (frame : List Nat) (wirelen : Nat) (dev : String) :
    Option PacketInfo := do
  let vhl ← byteAt frame 14
  let ihl := vhl % 16
  let p ← byteAt frame 23
  let s0 ← byteAt frame 26
  let s1 ← byteAt frame 27
  let s2 ← byteAt frame 28
  let s3 ← byteAt frame 29
  let d0 ← byteAt frame 30
  let d1 ← byteAt frame 31
  let d2 ← byteAt frame 32
  let d3 ← byteAt frame 33
  let srcIp := ipToString s0 s1 s2 s3
  let dstIp := ipToString d0 d1 d2 d3
  if p = 6 then do
    let sp ← be16 frame (14 + 4 * ihl)
    let dp ← be16 frame (14 + 4 * ihl + 2)
    pure { source_ip := srcIp, dest_ip := dstIp, source_port := sp,
           dest_port := dp, protocol := "TCP", length := wirelen,
           interface := dev }
  else if p = 17 then do
    let sp ← be16 frame (14 + 4 * ihl)
    let dp ← be16 frame (14 + 4 * ihl + 2)
    pure { source_ip := srcIp, dest_ip := dstIp, source_port := sp,
           dest_port := dp, protocol := "UDP", length := wirelen,
           interface := dev }
  else if p = 1 then
    pure { source_ip := srcIp, dest_ip := dstIp, source_port := 0,
           dest_port := 0, protocol := "ICMP", length := wirelen,
           interface := dev }
  else
    pure { source_ip := srcIp, dest_ip := dstIp, source_port := 0,
           dest_port := 0, protocol := "Other", length := wirelen,
           interface := dev }

/-- Outcome of running the `NetworkMonitor` constructor
(network_monitor.cpp lines 99-110). -/
inductive CtorOutcome where
  | opened
  | processExit (code : Nat)
  deriving Repr, DecidableEq

/-- Embeds the `NetworkMonitor` constructor: `pcap_open_live` failure is
handled by `exit(EXIT_FAILURE)` (network_monitor.cpp line 106), which
terminates the entire process; no error value is returned.  `canOpen`
abstracts whether `pcap_open_live` succeeds for a device. -/
def networkMonitorCtor (canOpen : String → Bool) (dev : String) : CtorOutcome :=
  if canOpen dev then .opened else .processExit 1

/-- Outcome of a multi-interface capture run. -/
inductive MultiOutcome where
  | allSessionsRunning
  | processAborted (code : Nat)
  deriving Repr, DecidableEq

/-- Embeds `MultiMonitor::startCapture` / `MultiMonitor::captureThread`
(multi_monitor.cpp lines 50-91): each capture thread constructs a
`NetworkMonitor` for its device.  A constructor that calls
`exit(EXIT_FAILURE)` terminates the whole process — the `try/catch` in
`captureThread` cannot intercept `exit`, so one failed open aborts every
sibling session. -/
def multiCaptureOutcome (canOpen : String → Bool) (devs : List String) :
    MultiOutcome :=
  if devs.all canOpen then .allSessionsRunning else .processAborted 1

/-- Shared state of the unsynchronized increment race: `mem` is
`Dashboard::total_packets`; each of two capture threads executing
`total_packets++` (dashboard.cpp line 26) holds a private register and a
program counter (0 = about to load, 1 = about to store, 2 = done).
Neither `Dashboard` nor `MultiMonitor` ever acquires a lock around
`updatePacket` (the `std::mutex` member of `MultiMonitor` is never
locked), so the load and store of the two threads may interleave
freely. -/
structure RaceState where
  mem : Nat
  reg1 : Nat
  pc1 : Nat
  reg2 : Nat
  pc2 : Nat
  deriving Repr, DecidableEq

/-- Initial race state: fresh dashboard, both threads about to run
`total_packets++` once. -/
def raceInit : RaceState :=
  { mem := 0, reg1 := 0, pc1 := 0, reg2 := 0, pc2 := 0 }

/-- One machine step of thread 1's non-atomic `total_packets++`:
load `total_packets` into a register, then store register + 1 back. -/
def stepIncr1 (s : RaceState) : RaceState :=
  if s.pc1 = 0 then { s with reg1 := s.mem, pc1 := 1 }
  else if s.pc1 = 1 then { s with mem := s.reg1 + 1, pc1 := 2 }
  else s

/-- One machine step of thread 2's non-atomic `total_packets++`. -/
def stepIncr2 (s : RaceState) : RaceState :=
  if s.pc2 = 0 then { s with reg2 := s.mem, pc2 := 1 }
  else if s.pc2 = 1 then { s with mem := s.reg2 + 1, pc2 := 2 }
  else s

/-- Runs the two racing threads under an explicit interleaving: `true`
schedules a step of thread 1, `false` a step of thread 2. -/
def runSched (sched : List Bool) (s : RaceState) : RaceState :=
  sched.foldl (fun st choice => if choice then stepIncr1 st else stepIncr2 st) s

/-- Update of a first-seen-ordered association list: increment in place if
present, append at the end (preserving insertion order) if absent.  Used
only to state the spec's tie-breaking rule. -/
def bumpFirstSeen (k : ConnectionInfo) :
    List (ConnectionInfo × Nat) → List (ConnectionInfo × Nat)
  | [] => [(k, 1)]
  | (k₀, v) :: rest =>
    if k = k₀ then (k₀, v + 1) :: rest else (k₀, v) :: bumpFirstSeen k rest

/-- Connection counts listed in first-seen insertion order. -/
def firstSeenEntries (rs : List PacketInfo) : List (ConnectionInfo × Nat) :=
  rs.foldl (fun l r => bumpFirstSeen (connKeyOf r) l) []

/-- Modelled from the spec's words, for comparison with the code's
`topConnections`: the top 10 connections "ordered by descending packet
count (ties broken by first-seen insertion order, i.e., a stable
sort)". -/
def specTopConnections (rs : List PacketInfo) : List (ConnectionInfo × Nat) :=
  (sortByCount (firstSeenEntries rs)).take 10

/-- Concrete record (TCP, 66 bytes) of the spec's three-record scenario. -/
def rTCP : PacketInfo :=
  { source_ip := "192.168.1.10", dest_ip := "172.217.16.14",
    source_port := 12345, dest_port := 443, protocol := "TCP",
    length := 66, interface := "eth0" }

/-- Concrete record (UDP, 74 bytes) of the spec's three-record scenario. -/
def rUDP : PacketInfo :=
  { source_ip := "192.168.1.10", dest_ip := "8.8.8.8",
    source_port := 54321, dest_port := 53, protocol := "UDP",
    length := 74, interface := "eth0" }

/-- Concrete record (ICMP, 98 bytes) of the spec's three-record scenario. -/
def rICMP : PacketInfo :=
  { source_ip := "192.168.1.1", dest_ip := "192.168.1.10",
    source_port := 0, dest_port := 0, protocol := "ICMP",
    length := 98, interface := "eth0" }

/-- First-inserted record of the tie-breaking counterexample: its
connection key sorts after `rLow`'s key under `ConnectionInfo::operator<`. -/
def rHigh : PacketInfo :=
  { source_ip := "9.9.9.9", dest_ip := "1.1.1.1",
    source_port := 80, dest_port := 80, protocol := "TCP",
    length := 60, interface := "eth0" }

/-- Second-inserted record of the tie-breaking counterexample: its
connection key sorts before `rHigh`'s key. -/
def rLow : PacketInfo :=
  { source_ip := "1.1.1.1", dest_ip := "9.9.9.9",
    source_port := 80, dest_port := 80, protocol := "TCP",
    length := 60, interface := "eth0" }

/-- Concrete well-formed 38-byte captured frame: 14-byte Ethernet header,
20-byte IPv4 header (`ip_hl = 5`, protocol 6 = TCP, 10.0.0.1 → 10.0.0.2),
then the first four transport bytes: source port 12345, destination port
443, big-endian. -/
def tcpFrame : List Nat :=
  [0, 0, 0, 0, 0, 0, 0, 0, 0, 0, 0, 0, 8, 0,
   69, 0, 0, 40, 0, 0, 0, 0, 64, 6, 0, 0,
   10, 0, 0, 1, 10, 0, 0, 2,
   48, 57, 1, 187]

/-- Concrete well-formed 34-byte ICMP frame: 14-byte Ethernet header and a
20-byte IPv4 header with protocol tag 1 (ICMP), 192.168.1.1 →
192.168.1.10. -/
def icmpFrame : List Nat :=
  [0, 0, 0, 0, 0, 0, 0, 0, 0, 0, 0, 0, 8, 0,
   69, 0, 0, 20, 0, 0, 0, 0, 64, 1, 0, 0,
   192, 168, 1, 1, 192, 168, 1, 10]

/-- Concrete truncated capture: only 10 bytes were captured
(`caplen = 10`), shorter even than the 14-byte Ethernet header. -/
def shortFrame : List Nat :=
  List.replicate 10 0

/-! ### Properties of the key orders -/

theorem strLt_iff (a b : String) : strLt a b = true ↔ a < b := by
  simp [strLt, String.lt_iff_toList_lt]

theorem strLt_trans {a b c : String} (h1 : strLt a b = true)
    (h2 : strLt b c = true) : strLt a c = true := by
  rw [strLt_iff] at h1 h2 ⊢
  exact lt_trans h1 h2

theorem strLt_asymm {a b : String} (h1 : strLt a b = true)
    (h2 : strLt b a = true) : False := by
  rw [strLt_iff] at h1 h2
  exact lt_asymm h1 h2

theorem strLt_conn {a b : String} (h1 : strLt a b = false)
    (h2 : strLt b a = false) : a = b := by
  have h1' : ¬ a < b := by rw [← strLt_iff, h1]; simp
  have h2' : ¬ b < a := by rw [← strLt_iff, h2]; simp
  exact le_antisymm (le_of_not_lt h2') (le_of_not_lt h1')

theorem natLt_trans {a b c : Nat} (h1 : natLt a b = true)
    (h2 : natLt b c = true) : natLt a c = true := by
  simp only [natLt, decide_eq_true_eq] at h1 h2 ⊢
  omega

theorem natLt_asymm {a b : Nat} (h1 : natLt a b = true)
    (h2 : natLt b a = true) : False := by
  simp only [natLt, decide_eq_true_eq] at h1 h2
  omega

theorem natLt_conn {a b : Nat} (h1 : natLt a b = false)
    (h2 : natLt b a = false) : a = b := by
  simp only [natLt, decide_eq_false_iff_not] at h1 h2
  omega

theorem lexIf_trans {γ α : Type} [DecidableEq α] {f : γ → α}
    {flt : α → α → Bool} {g : γ → γ → Bool}
    (hT : ∀ x y z, flt x y = true → flt y z = true → flt x z = true)
    (hA : ∀ x y, flt x y = true → flt y x = true → False)
    (hg : ∀ a b c, g a b = true → g b c = true → g a c = true)
    (a b c : γ) (h1 : lexIf f flt g a b = true)
    (h2 : lexIf f flt g b c = true) : lexIf f flt g a c = true := by
  simp only [lexIf] at h1 h2 ⊢
  by_cases e1 : f a = f b <;> by_cases e2 : f b = f c
  · rw [if_neg (fun h => h e1)] at h1
    rw [if_neg (fun h => h e2)] at h2
    rw [if_neg (fun h => h (e1.trans e2))]
    exact hg _ _ _ h1 h2
  · rw [if_neg (fun h => h e1)] at h1
    rw [if_pos e2] at h2
    have e3 : f a ≠ f c := fun h => e2 (e1.symm.trans h)
    rw [if_pos e3, e1]
    exact h2
  · rw [if_pos e1] at h1
    rw [if_neg (fun h => h e2)] at h2
    have e3 : f a ≠ f c := fun h => e1 (h.trans e2.symm)
    rw [if_pos e3, ← e2]
    exact h1
  · rw [if_pos e1] at h1
    rw [if_pos e2] at h2
    have hac := hT _ _ _ h1 h2
    have e3 : f a ≠ f c := by
      intro h
      rw [h] at h1
      exact hA _ _ h1 h2
    rw [if_pos e3]
    exact hac

theorem lexIf_asymm {γ α : Type} [DecidableEq α] {f : γ → α}
    {flt : α → α → Bool} {g : γ → γ → Bool}
    (hA : ∀ x y, flt x y = true → flt y x = true → False)
    (hg : ∀ a b, g a b = true → g b a = true → False)
    (a b : γ) (h1 : lexIf f flt g a b = true)
    (h2 : lexIf f flt g b a = true) : False := by
  simp only [lexIf] at h1 h2
  by_cases e : f a = f b
  · rw [if_neg (fun h => h e)] at h1
    rw [if_neg (fun h => h e.symm)] at h2
    exact hg _ _ h1 h2
  · rw [if_pos e] at h1
    rw [if_pos (fun h => e h.symm)] at h2
    exact hA _ _ h1 h2

theorem lexIf_conn {γ α : Type} [DecidableEq α] {f : γ → α}
    {flt : α → α → Bool} {g : γ → γ → Bool} {R : γ → γ → Prop}
    (hC : ∀ x y, flt x y = false → flt y x = false → x = y)
    (hg : ∀ a b, g a b = false → g b a = false → R a b)
    (a b : γ) (h1 : lexIf f flt g a b = false)
    (h2 : lexIf f flt g b a = false) : f a = f b ∧ R a b := by
  simp only [lexIf] at h1 h2
  by_cases e : f a = f b
  · rw [if_neg (fun h => h e)] at h1
    rw [if_neg (fun h => h e.symm)] at h2
    exact ⟨e, hg _ _ h1 h2⟩
  · rw [if_pos e] at h1
    rw [if_pos (fun h => e h.symm)] at h2
    exact absurd (hC _ _ h1 h2) e

theorem connLt_trans {a b c : ConnectionInfo} (h1 : connLt a b = true)
    (h2 : connLt b c = true) : connLt a c = true := by
  unfold connLt at h1 h2 ⊢
  exact @lexIf_trans ConnectionInfo String _ ConnectionInfo.source_ip strLt _
    (fun _ _ _ => strLt_trans) (fun _ _ => strLt_asymm)
    (@lexIf_trans ConnectionInfo String _ ConnectionInfo.dest_ip strLt _
      (fun _ _ _ => strLt_trans) (fun _ _ => strLt_asymm)
      (@lexIf_trans ConnectionInfo Nat _ ConnectionInfo.source_port natLt _
        (fun _ _ _ => natLt_trans) (fun _ _ => natLt_asymm)
        (@lexIf_trans ConnectionInfo Nat _ ConnectionInfo.dest_port natLt
          (fun x y => strLt x.protocol y.protocol)
          (fun _ _ _ => natLt_trans) (fun _ _ => natLt_asymm)
          (fun _ _ _ => strLt_trans))))
    a b c h1 h2

theorem connLt_asymm {a b : ConnectionInfo} (h1 : connLt a b = true)
    (h2 : connLt b a = true) : False := by
  unfold connLt at h1 h2
  exact @lexIf_asymm ConnectionInfo String _ ConnectionInfo.source_ip strLt _
    (fun _ _ => strLt_asymm)
    (@lexIf_asymm ConnectionInfo String _ ConnectionInfo.dest_ip strLt _
      (fun _ _ => strLt_asymm)
      (@lexIf_asymm ConnectionInfo Nat _ ConnectionInfo.source_port natLt _
        (fun _ _ => natLt_asymm)
        (@lexIf_asymm ConnectionInfo Nat _ ConnectionInfo.dest_port natLt
          (fun x y => strLt x.protocol y.protocol)
          (fun _ _ => natLt_asymm)
          (fun _ _ => strLt_asymm))))
    a b h1 h2

theorem connLt_conn {a b : ConnectionInfo} (h1 : connLt a b = false)
    (h2 : connLt b a = false) : a = b := by
  unfold connLt at h1 h2
  have h := @lexIf_conn ConnectionInfo String _ ConnectionInfo.source_ip strLt _ _
    (fun _ _ => strLt_conn)
    (@lexIf_conn ConnectionInfo String _ ConnectionInfo.dest_ip strLt _ _
      (fun _ _ => strLt_conn)
      (@lexIf_conn ConnectionInfo Nat _ ConnectionInfo.source_port natLt _ _
        (fun _ _ => natLt_conn)
        (@lexIf_conn ConnectionInfo Nat _ ConnectionInfo.dest_port natLt
          (fun x y => strLt x.protocol y.protocol)
          (fun x y => x.protocol = y.protocol)
          (fun _ _ => natLt_conn)
          (fun _ _ => strLt_conn))))
    a b h1 h2
  obtain ⟨e1, e2, e3, e4, e5⟩ := h
  cases a
  cases b
  simp_all

/-! ### Lemmas about the sorted-map embedding -/

theorem sumVals_mapBump {α : Type} [DecidableEq α] (lt : α → α → Bool)
    (k : α) (d : Nat) (l : List (α × Nat)) :
    sumVals (mapBump lt k d l) = sumVals l + d := by
  induction l with
  | nil => simp [mapBump, sumVals]
  | cons hd tl ih =>
    obtain ⟨k₀, v⟩ := hd
    by_cases e : k = k₀
    · simp [mapBump, e, sumVals]
      omega
    · by_cases elt : lt k k₀
      · simp [mapBump, e, elt, sumVals]
        omega
      · simp only [mapBump, if_neg e, if_neg elt]
        simp [sumVals] at ih ⊢
        omega

theorem mem_mapBump {α : Type} [DecidableEq α] {lt : α → α → Bool}
    {k : α} {d : Nat} {l : List (α × Nat)} {x : α × Nat}
    (hx : x ∈ mapBump lt k d l) : x.1 = k ∨ x ∈ l := by
  induction l with
  | nil =>
    simp [mapBump] at hx
    left
    rw [hx]
  | cons hd tl ih =>
    obtain ⟨k₀, v⟩ := hd
    by_cases e : k = k₀
    · simp only [mapBump, if_pos e] at hx
      rcases List.mem_cons.mp hx with h | h
      · left
        rw [h]
        exact e.symm
      · right
        exact List.mem_cons_of_mem _ h
    · by_cases elt : lt k k₀
      · simp only [mapBump, if_neg e, if_pos elt] at hx
        rcases List.mem_cons.mp hx with h | h
        · left
          rw [h]
        · right
          exact h
      · simp only [mapBump, if_neg e, if_neg elt] at hx
        rcases List.mem_cons.mp hx with h | h
        · right
          rw [h]
          exact List.mem_cons_self _ _
        · rcases ih h with h' | h'
          · left
            exact h'
          · right
            exact List.mem_cons_of_mem _ h'

theorem pos_mapBump {α : Type} [DecidableEq α] {lt : α → α → Bool}
    {k : α} {d : Nat} {l : List (α × Nat)}
    (hd : 1 ≤ d) (hl : ∀ x ∈ l, 1 ≤ x.2) :
    ∀ x ∈ mapBump lt k d l, 1 ≤ x.2 := by
  induction l with
  | nil =>
    intro x hx
    simp [mapBump] at hx
    rw [hx]
    exact hd
  | cons hd₀ tl ih =>
    obtain ⟨k₀, v⟩ := hd₀
    intro x hx
    by_cases e : k = k₀
    · simp only [mapBump, if_pos e] at hx
      rcases List.mem_cons.mp hx with h | h
      · rw [h]
        simp
        omega
      · exact hl x (List.mem_cons_of_mem _ h)
    · by_cases elt : lt k k₀
      · simp only [mapBump, if_neg e, if_pos elt] at hx
        rcases List.mem_cons.mp hx with h | h
        · rw [h]
          exact hd
        · exact hl x h
      · simp only [mapBump, if_neg e, if_neg elt] at hx
        rcases List.mem_cons.mp hx with h | h
        · rw [h]
          exact hl _ (List.mem_cons_self _ _)
        · exact ih (fun y hy => hl y (List.mem_cons_of_mem _ hy)) x h

theorem sorted_mapBump {α : Type} [DecidableEq α] {lt : α → α → Bool}
    (hT : ∀ x y z, lt x y = true → lt y z = true → lt x z = true)
    (hC : ∀ x y, lt x y = false → lt y x = false → x = y)
    (k : α) (d : Nat) {l : List (α × Nat)}
    (hs : l.Pairwise (fun x y => lt x.1 y.1 = true)) :
    (mapBump lt k d l).Pairwise (fun x y => lt x.1 y.1 = true) := by
  induction l with
  | nil => simp [mapBump]
  | cons hd tl ih =>
    obtain ⟨k₀, v⟩ := hd
    rw [List.pairwise_cons] at hs
    obtain ⟨hhead, htl⟩ := hs
    by_cases e : k = k₀
    · simp only [mapBump, if_pos e]
      rw [List.pairwise_cons]
      exact ⟨hhead, htl⟩
    · by_cases elt : lt k k₀
      · simp only [mapBump, if_neg e, if_pos elt]
        rw [List.pairwise_cons]
        constructor
        · intro y hy
          rcases List.mem_cons.mp hy with h | h
          · rw [h]
            exact elt
          · exact hT _ _ _ elt (hhead y h)
        · rw [List.pairwise_cons]
          exact ⟨hhead, htl⟩
      · simp only [mapBump, if_neg e, if_neg elt]
        rw [List.pairwise_cons]
        constructor
        · intro y hy
          rcases mem_mapBump hy with h | h
          · rw [h]
            cases h0 : lt k₀ k with
            | true => rfl
            | false =>
              have hfalse : lt k k₀ = false := by
                cases h1 : lt k k₀ with
                | true => exact absurd h1 elt
                | false => rfl
              exact absurd (hC _ _ hfalse h0) e
          · exact hhead y h
        · exact ih htl

theorem mapFind_eq_none {α : Type} [DecidableEq α] {l : List (α × Nat)}
    {k : α} (h : ∀ y ∈ l, k ≠ y.1) : mapFind l k = none := by
  induction l with
  | nil => rfl
  | cons hd tl ih =>
    obtain ⟨k₀, v⟩ := hd
    have hne : k ≠ k₀ := h (k₀, v) (List.mem_cons_self _ _)
    simp only [mapFind, if_neg hne]
    exact ih fun y hy => h y (List.mem_cons_of_mem _ hy)

theorem mapFind_mapBump {α : Type} [DecidableEq α] {lt : α → α → Bool}
    (hA : ∀ x y, lt x y = true → lt y x = true → False)
    (k : α) (d : Nat) {l : List (α × Nat)}
    (hs : l.Pairwise (fun x y => lt x.1 y.1 = true)) (q : α) :
    mapFind (mapBump lt k d l) q =
      if q = k then some ((mapFind l k).getD 0 + d) else mapFind l q := by
  induction l with
  | nil =>
    by_cases e : q = k
    · simp [mapBump, mapFind, e]
    · simp [mapBump, mapFind, e]
  | cons hd tl ih =>
    obtain ⟨k₀, v⟩ := hd
    rw [List.pairwise_cons] at hs
    obtain ⟨hhead, htl⟩ := hs
    by_cases e : k = k₀
    · simp only [mapBump, if_pos e]
      by_cases eq : q = k
      · simp only [mapFind, if_pos (eq.trans e), if_pos eq, if_pos e]
        simp
      · have hqk₀ : q ≠ k₀ := fun h => eq (h.trans e.symm)
        simp only [mapFind, if_neg hqk₀, if_neg eq]
    · by_cases elt : lt k k₀
      · simp only [mapBump, if_neg e, if_pos elt]
        by_cases eq : q = k
        · have hnone : mapFind ((k₀, v) :: tl) k = none := by
            apply mapFind_eq_none
            intro y hy
            rcases List.mem_cons.mp hy with h | h
            · rw [h]
              exact e
            · intro hk
              exact hA _ _ (hk ▸ elt) (hhead y h)
          rw [if_pos eq, hnone]
          simp only [mapFind, if_pos eq]
          simp
        · simp only [mapFind, if_neg eq]
      · simp only [mapBump, if_neg e, if_neg elt]
        by_cases eq : q = k₀
        · have hqk : q ≠ k := fun h => e ((h.symm.trans eq).symm ▸ rfl)
          simp only [mapFind, if_pos eq, if_neg hqk]
        · simp only [mapFind, if_neg eq]
          rw [ih htl]
          by_cases eqk : q = k
          · have hkk₀ : k ≠ k₀ := e
            simp only [if_pos eqk, mapFind, if_neg hkk₀]
          · simp only [if_neg eqk]

/-! ### Lemmas about sequential aggregation -/

theorem foldl_totals (rs : List PacketInfo) (d : Dashboard) :
    (rs.foldl Dashboard.updatePacket d).total_packets =
        d.total_packets + rs.length ∧
    (rs.foldl Dashboard.updatePacket d).total_bytes =
        d.total_bytes + (rs.map PacketInfo.length).sum := by
  induction rs generalizing d with
  | nil => simp
  | cons r tl ih =>
    simp only [List.foldl_cons, List.map_cons, List.sum_cons, List.length_cons]
    obtain ⟨h1, h2⟩ := ih (d.updatePacket r)
    constructor
    · rw [h1]
      simp only [Dashboard.updatePacket]
      omega
    · rw [h2]
      simp only [Dashboard.updatePacket]
      omega

theorem foldl_sorted_connections (rs : List PacketInfo) (d : Dashboard)
    (hs : d.connections.Pairwise (fun x y => connLt x.1 y.1 = true)) :
    ((rs.foldl Dashboard.updatePacket d).connections).Pairwise
      (fun x y => connLt x.1 y.1 = true) := by
  induction rs generalizing d with
  | nil => exact hs
  | cons r tl ih =>
    refine ih (d.updatePacket r) ?_
    have hT : ∀ x y z : ConnectionInfo,
        connLt x y = true → connLt y z = true → connLt x z = true :=
      fun _ _ _ hxy hyz => connLt_trans hxy hyz
    have hC : ∀ x y : ConnectionInfo,
        connLt x y = false → connLt y x = false → x = y :=
      fun _ _ hxy hyx => connLt_conn hxy hyx
    exact sorted_mapBump hT hC (connKeyOf r) 1 hs

theorem sorted_connections (rs : List PacketInfo) :
    ((recordAll rs).connections).Pairwise (fun x y => connLt x.1 y.1 = true) :=
  foldl_sorted_connections rs Dashboard.init (by simp [Dashboard.init])

theorem foldl_inv (rs : List PacketInfo) (d : Dashboard)
    (seen : List PacketInfo)
    (h1 : d.total_packets = sumVals d.protocol_counts)
    (h2 : d.total_bytes = sumVals d.protocol_bytes)
    (h3 : ∀ kv ∈ d.connections, 1 ≤ kv.2)
    (h4 : ∀ kv ∈ d.connections, ∃ r ∈ seen, connKeyOf r = kv.1) :
    (rs.foldl Dashboard.updatePacket d).total_packets =
        sumVals (rs.foldl Dashboard.updatePacket d).protocol_counts ∧
    (rs.foldl Dashboard.updatePacket d).total_bytes =
        sumVals (rs.foldl Dashboard.updatePacket d).protocol_bytes ∧
    (∀ kv ∈ (rs.foldl Dashboard.updatePacket d).connections, 1 ≤ kv.2) ∧
    (∀ kv ∈ (rs.foldl Dashboard.updatePacket d).connections,
      ∃ r ∈ seen ++ rs, connKeyOf r = kv.1) := by
  induction rs generalizing d seen with
  | nil =>
    simp only [List.foldl_nil, List.append_nil]
    exact ⟨h1, h2, h3, h4⟩
  | cons r tl ih =>
    simp only [List.foldl_cons]
    have step := ih (d.updatePacket r) (seen ++ [r]) ?_ ?_ ?_ ?_
    · simpa using step
    · simp only [Dashboard.updatePacket, sumVals_mapBump, h1]
    · simp only [Dashboard.updatePacket, sumVals_mapBump, h2]
    · exact pos_mapBump (le_refl 1) h3
    · intro kv hkv
      rcases mem_mapBump hkv with h | h
      · exact ⟨r, by simp, h.symm⟩
      · obtain ⟨r', hr', he⟩ := h4 kv h
        exact ⟨r', by simp [hr'], he⟩

/-! ### Lemmas about the top-connections sort -/

theorem insertByCount_perm (x : ConnectionInfo × Nat)
    (l : List (ConnectionInfo × Nat)) :
    (insertByCount x l).Perm (x :: l) := by
  induction l with
  | nil => exact List.Perm.refl _
  | cons y tl ih =>
    by_cases h : y.2 ≤ x.2
    · simp only [insertByCount, if_pos h]
      exact List.Perm.refl _
    · simp only [insertByCount, if_neg h]
      exact (ih.cons y).trans (List.Perm.swap x y tl)

theorem sortByCount_perm (l : List (ConnectionInfo × Nat)) :
    (sortByCount l).Perm l := by
  induction l with
  | nil => exact List.Perm.refl _
  | cons x tl ih =>
    exact (insertByCount_perm x (sortByCount tl)).trans (ih.cons x)

theorem sorted_insertByCount (x : ConnectionInfo × Nat)
    {l : List (ConnectionInfo × Nat)}
    (hs : l.Pairwise (fun a b => b.2 ≤ a.2)) :
    (insertByCount x l).Pairwise (fun a b => b.2 ≤ a.2) := by
  induction l with
  | nil => simp [insertByCount]
  | cons y tl ih =>
    rw [List.pairwise_cons] at hs
    obtain ⟨hy, htl⟩ := hs
    by_cases h : y.2 ≤ x.2
    · simp only [insertByCount, if_pos h]
      rw [List.pairwise_cons]
      constructor
      · intro z hz
        rcases List.mem_cons.mp hz with h' | h'
        · rw [h']
          exact h
        · exact le_trans (hy z h') h
      · rw [List.pairwise_cons]
        exact ⟨hy, htl⟩
    · simp only [insertByCount, if_neg h]
      rw [List.pairwise_cons]
      constructor
      · intro z hz
        rcases List.mem_cons.mp ((insertByCount_perm x tl).mem_iff.mp hz) with
          h' | h'
        · rw [h']
          omega
        · exact hy z h'
      · exact ih htl

theorem sortByCount_sorted (l : List (ConnectionInfo × Nat)) :
    (sortByCount l).Pairwise (fun a b => b.2 ≤ a.2) := by
  induction l with
  | nil => simp [sortByCount]
  | cons x tl ih => exact sorted_insertByCount x ih

theorem filter_insertByCount (x : ConnectionInfo × Nat)
    (l : List (ConnectionInfo × Nat)) (c : Nat) :
    (insertByCount x l).filter (fun z => z.2 == c) =
      ((x :: l).filter (fun z => z.2 == c)) := by
  induction l with
  | nil => rfl
  | cons y tl ih =>
    by_cases h : y.2 ≤ x.2
    · simp only [insertByCount, if_pos h]
    · simp only [insertByCount, if_neg h]
      by_cases hx : x.2 = c <;> by_cases hy : y.2 = c
      · exact absurd (le_of_eq (hy.trans hx.symm)) h
      · simp only [List.filter_cons, beq_iff_eq, hx, hy, if_true, if_false, ih]
      · simp only [List.filter_cons, beq_iff_eq, hx, hy, if_true, if_false, ih]
      · simp only [List.filter_cons, beq_iff_eq, hx, hy, if_true, if_false, ih]

theorem filter_sortByCount (l : List (ConnectionInfo × Nat)) (c : Nat) :
    (sortByCount l).filter (fun z => z.2 == c) =
      l.filter (fun z => z.2 == c) := by
  induction l with
  | nil => rfl
  | cons x tl ih =>
    rw [show sortByCount (x :: tl) = insertByCount x (sortByCount tl) from rfl]
    rw [filter_insertByCount]
    simp only [List.filter_cons]
    rw [ih]

/-! ### Lemmas about the frame decoder -/

theorem byteAt_some {frame : List Nat} {i : Nat} (h : i < frame.length) :
    ∃ b, byteAt frame i = some b :=
  ⟨frame.get ⟨i, h⟩, by simp [byteAt, List.getElem?_eq_getElem h]⟩

/-! ### Claim theorems -/

/-- C1.  The claim states that `Dashboard::updatePacket` updates all
counter families atomically with respect to concurrent `record` calls,
so that two threads issuing one record each always leave
`totalPackets = 2`.  The code has no synchronization: `Dashboard` has no
mutex, and the `std::mutex` member of `MultiMonitor` is never locked, so
the non-atomic `total_packets++` of two capture threads may interleave.
Under the interleaving load₁, load₂, store₁, store₂ both threads complete
their increment (`pc1 = pc2 = 2`) yet `totalPackets` ends at 1, not 2: a
lost update. -/
theorem claim_C1 :
    (runSched [true, false, true, false] raceInit).pc1 = 2 ∧
    (runSched [true, false, true, false] raceInit).pc2 = 2 ∧
    (runSched [true, false, true, false] raceInit).mem = 1 := by
  decide

/-- C2.  The claim states that decoding a frame whose `captureLength` is
smaller than the claimed headers returns a `DecodeError` and never reads
a byte at or past `captureLength`.  The code has no bounds check and no
error path at all: on a 10-byte capture the handler's very first field
access (`ip_header->ip_hl`, offset 14) is already at or past
`captureLength`, an out-of-bounds read (`none` in the embedding). -/
theorem claim_C2 :
    shortFrame.length = 10 ∧
    byteAt shortFrame 14 = none ∧
    packetHandlerDecode shortFrame 10 "eth0" = none := by
  decide

/-- C3.  The claim states that in multi-interface mode an open failure on
one device is reported as an `OpenError` carrying the device name while
sibling sessions continue.  In the code the `NetworkMonitor` constructor
calls `exit(EXIT_FAILURE)` when `pcap_open_live` fails, terminating the
whole process: with devices `eth0` (openable) and `bad0` (not openable)
the run aborts, killing the `eth0` session as well. -/
theorem claim_C3 :
    networkMonitorCtor (fun d => d == "eth0") "bad0" =
      CtorOutcome.processExit 1 ∧
    multiCaptureOutcome (fun d => d == "eth0") ["eth0", "bad0"] =
      MultiOutcome.processAborted 1 := by
  decide

/-- C4.  Accumulation law: after sequentially recording `r1..rn` from the
fresh dashboard, `totalPackets = n` and `totalBytes` is the sum of the
record lengths; in particular the (TCP 66 B, UDP 74 B, ICMP 98 B)
scenario yields `totalPackets = 3`, `totalBytes = 238`, and protocol
counts TCP/UDP/ICMP each 1. -/
theorem claim_C4 :
    (∀ rs : List PacketInfo,
      (recordAll rs).total_packets = rs.length ∧
      (recordAll rs).total_bytes = (rs.map PacketInfo.length).sum) ∧
    (recordAll [rTCP, rUDP, rICMP]).total_packets = 3 ∧
    (recordAll [rTCP, rUDP, rICMP]).total_bytes = 238 ∧
    mapFind (recordAll [rTCP, rUDP, rICMP]).protocol_counts "TCP" = some 1 ∧
    mapFind (recordAll [rTCP, rUDP, rICMP]).protocol_counts "UDP" = some 1 ∧
    mapFind (recordAll [rTCP, rUDP, rICMP]).protocol_counts "ICMP" = some 1 := by
  refine ⟨fun rs => ?_, by decide, by decide, by decide, by decide, by decide⟩
  have h := foldl_totals rs Dashboard.init
  simpa [recordAll, Dashboard.init] using h

/-- C5.  Invariant preserved by every `updatePacket` from the initial
state: `totalPackets` equals the sum of `protocolCounts` values,
`totalBytes` equals the sum of `protocolBytes` values, and every
connection entry has count at least 1 and stems from some recorded
packet. -/
theorem claim_C5 : ∀ rs : List PacketInfo,
    (recordAll rs).total_packets = sumVals (recordAll rs).protocol_counts ∧
    (recordAll rs).total_bytes = sumVals (recordAll rs).protocol_bytes ∧
    ∀ kv ∈ (recordAll rs).connections,
      1 ≤ kv.2 ∧ ∃ r ∈ rs, connKeyOf r = kv.1 := by
  intro rs
  have h := foldl_inv rs Dashboard.init []
    (by simp [Dashboard.init, sumVals])
    (by simp [Dashboard.init, sumVals])
    (by simp [Dashboard.init])
    (by simp [Dashboard.init])
  obtain ⟨h1, h2, h3, h4⟩ := h
  refine ⟨h1, h2, fun kv hkv => ⟨h3 kv hkv, ?_⟩⟩
  simpa using h4 kv hkv

/-- C6.  For every captured frame whose protocol tag is TCP (6) or UDP
(17) and which is long enough for the claimed headers, the decoded ports
are the 16-bit big-endian words at offsets `14 + 4*ip_hl` and
`14 + 4*ip_hl + 2`, with the same extraction serving both protocols. -/
theorem claim_C6 (frame : List Nat) (w : Nat) (dev : String)
    (vhl p : Nat)
    (h14 : byteAt frame 14 = some vhl)
    (htag : byteAt frame 23 = some p)
    (hp : p = 6 ∨ p = 17)
    (h34 : 34 ≤ frame.length)
    (hport : 14 + 4 * (vhl % 16) + 4 ≤ frame.length) :
    ∃ info, packetHandlerDecode frame w dev = some info ∧
      be16 frame (14 + 4 * (vhl % 16)) = some info.source_port ∧
      be16 frame (14 + 4 * (vhl % 16) + 2) = some info.dest_port ∧
      info.protocol = (if p = 6 then "TCP" else "UDP") := by
  obtain ⟨b26, e26⟩ := byteAt_some (show 26 < frame.length by omega)
  obtain ⟨b27, e27⟩ := byteAt_some (show 27 < frame.length by omega)
  obtain ⟨b28, e28⟩ := byteAt_some (show 28 < frame.length by omega)
  obtain ⟨b29, e29⟩ := byteAt_some (show 29 < frame.length by omega)
  obtain ⟨b30, e30⟩ := byteAt_some (show 30 < frame.length by omega)
  obtain ⟨b31, e31⟩ := byteAt_some (show 31 < frame.length by omega)
  obtain ⟨b32, e32⟩ := byteAt_some (show 32 < frame.length by omega)
  obtain ⟨b33, e33⟩ := byteAt_some (show 33 < frame.length by omega)
  obtain ⟨p0, ep0⟩ :=
    byteAt_some (show 14 + 4 * (vhl % 16) < frame.length by omega)
  obtain ⟨p1, ep1⟩ :=
    byteAt_some (show 14 + 4 * (vhl % 16) + 1 < frame.length by omega)
  obtain ⟨p2, ep2⟩ :=
    byteAt_some (show 14 + 4 * (vhl % 16) + 2 < frame.length by omega)
  obtain ⟨p3, ep3⟩ :=
    byteAt_some (show 14 + 4 * (vhl % 16) + 2 + 1 < frame.length by omega)
  rcases hp with h6 | h17
  · subst h6
    refine ⟨{ source_ip := ipToString b26 b27 b28 b29,
              dest_ip := ipToString b30 b31 b32 b33,
              source_port := p0 * 256 + p1,
              dest_port := p2 * 256 + p3,
              protocol := "TCP", length := w, interface := dev },
            ?_, ?_, ?_, ?_⟩
    · simp [packetHandlerDecode, h14, htag, e26, e27, e28, e29, e30, e31,
        e32, e33, be16, ep0, ep1, ep2, ep3]
    · simp [be16, ep0, ep1]
    · simp [be16, ep2, ep3]
    · simp
  · subst h17
    refine ⟨{ source_ip := ipToString b26 b27 b28 b29,
              dest_ip := ipToString b30 b31 b32 b33,
              source_port := p0 * 256 + p1,
              dest_port := p2 * 256 + p3,
              protocol := "UDP", length := w, interface := dev },
            ?_, ?_, ?_, ?_⟩
    · simp [packetHandlerDecode, h14, htag, e26, e27, e28, e29, e30, e31,
        e32, e33, be16, ep0, ep1, ep2, ep3]
    · simp [be16, ep0, ep1]
    · simp [be16, ep2, ep3]
    · simp

/-- Witness for C6: the concrete 38-byte TCP frame decodes with source
port 12345 and destination port 443 read big-endian at offset 34. -/
theorem claim_C6_witness :
    byteAt tcpFrame 23 = some 6 ∧
    ∃ info, packetHandlerDecode tcpFrame 66 "eth0" = some info ∧
      be16 tcpFrame (14 + 4 * (69 % 16)) = some info.source_port ∧
      be16 tcpFrame (14 + 4 * (69 % 16) + 2) = some info.dest_port ∧
      info.protocol = (if 6 = 6 then "TCP" else "UDP") :=
  ⟨by decide,
   claim_C6 tcpFrame 66 "eth0" 69 6 (by decide) (by decide) (Or.inl rfl)
     (by decide) (by decide)⟩

/-- C7.  For every sufficiently captured frame, an ICMP protocol tag (1)
decodes to protocol "ICMP" with both ports 0, and any tag other than
TCP (6), UDP (17) or ICMP (1) decodes to protocol "Other" with both
ports 0. -/
theorem claim_C7 (frame : List Nat) (w : Nat) (dev : String) (p : Nat)
    (htag : byteAt frame 23 = some p)
    (h34 : 34 ≤ frame.length) :
    (p = 1 → ∃ info, packetHandlerDecode frame w dev = some info ∧
      info.protocol = "ICMP" ∧ info.source_port = 0 ∧ info.dest_port = 0) ∧
    (p ≠ 6 → p ≠ 17 → p ≠ 1 →
      ∃ info, packetHandlerDecode frame w dev = some info ∧
        info.protocol = "Other" ∧ info.source_port = 0 ∧
        info.dest_port = 0) := by
  obtain ⟨b14, e14⟩ := byteAt_some (show 14 < frame.length by omega)
  obtain ⟨b26, e26⟩ := byteAt_some (show 26 < frame.length by omega)
  obtain ⟨b27, e27⟩ := byteAt_some (show 27 < frame.length by omega)
  obtain ⟨b28, e28⟩ := byteAt_some (show 28 < frame.length by omega)
  obtain ⟨b29, e29⟩ := byteAt_some (show 29 < frame.length by omega)
  obtain ⟨b30, e30⟩ := byteAt_some (show 30 < frame.length by omega)
  obtain ⟨b31, e31⟩ := byteAt_some (show 31 < frame.length by omega)
  obtain ⟨b32, e32⟩ := byteAt_some (show 32 < frame.length by omega)
  obtain ⟨b33, e33⟩ := byteAt_some (show 33 < frame.length by omega)
  constructor
  · intro h1
    subst h1
    refine ⟨{ source_ip := ipToString b26 b27 b28 b29,
              dest_ip := ipToString b30 b31 b32 b33,
              source_port := 0, dest_port := 0,
              protocol := "ICMP", length := w, interface := dev },
            ?_, rfl, rfl, rfl⟩
    simp [packetHandlerDecode, e14, htag, e26, e27, e28, e29, e30, e31,
      e32, e33]
  · intro hn6 hn17 hn1
    refine ⟨{ source_ip := ipToString b26 b27 b28 b29,
              dest_ip := ipToString b30 b31 b32 b33,
              source_port := 0, dest_port := 0,
              protocol := "Other", length := w, interface := dev },
            ?_, rfl, rfl, rfl⟩
    simp [packetHandlerDecode, e14, htag, e26, e27, e28, e29, e30, e31,
      e32, e33, hn6, hn17, hn1]

/-- Witness for C7: the concrete 34-byte ICMP frame decodes to protocol
"ICMP" with both ports 0. -/
theorem claim_C7_witness :
    (34 ≤ icmpFrame.length) ∧
    ((1 = 1 → ∃ info, packetHandlerDecode icmpFrame 98 "eth0" = some info ∧
        info.protocol = "ICMP" ∧ info.source_port = 0 ∧
        info.dest_port = 0) ∧
     (1 ≠ 6 → 1 ≠ 17 → 1 ≠ 1 →
        ∃ info, packetHandlerDecode icmpFrame 98 "eth0" = some info ∧
          info.protocol = "Other" ∧ info.source_port = 0 ∧
          info.dest_port = 0)) :=
  ⟨by decide, claim_C7 icmpFrame 98 "eth0" 1 (by decide) (by decide)⟩

/-- Counterexample for C8.  Two tied connections recorded in the order
`rHigh` then `rLow`: the spec's listing (ties broken by first-seen
insertion order) shows `rHigh`'s key first, but the code sorts the
key-ordered `std::map` entries, so `rLow`'s key (smaller under
`ConnectionInfo::operator<`) is listed first. -/
theorem claim_C8_counterexample :
    topConnections (recordAll [rHigh, rLow]) ≠
      specTopConnections [rHigh, rLow] := by
  decide

/-- C8 (amended).  The top-connections listing contains exactly
`min(10, #keys)` entries, is (the prefix of) a permutation of the
connection map sorted by descending packet count, and — under the stable
refinement of `std::sort`, whose tie order is otherwise unspecified —
breaks ties by ascending `ConnectionInfo::operator<` key order (the
`std::map` iteration order), not by first-seen insertion order; it is a
deterministic function of the snapshot alone. -/
theorem claim_C8_amended : ∀ rs : List PacketInfo,
    (topConnections (recordAll rs)).length =
      min 10 ((recordAll rs).connections).length ∧
    (sortByCount (recordAll rs).connections).Perm
      (recordAll rs).connections ∧
    (sortByCount (recordAll rs).connections).Pairwise
      (fun a b => b.2 ≤ a.2) ∧
    (∀ c : Nat, (sortByCount (recordAll rs).connections).filter
        (fun z => z.2 == c) =
      ((recordAll rs).connections).filter (fun z => z.2 == c)) ∧
    ((recordAll rs).connections).Pairwise
      (fun x y => connLt x.1 y.1 = true) := by
  intro rs
  refine ⟨?_, sortByCount_perm _, sortByCount_sorted _,
    fun c => filter_sortByCount _ c, sorted_connections rs⟩
  rw [topConnections, List.length_take, (sortByCount_perm _).length_eq]

/-- C9.  The rate divisor is the elapsed seconds floored to a minimum of
1 (never zero), and the freshly constructed dashboard has all counters
zero and zero rates at every elapsed time. -/
theorem claim_C9 : ∀ elapsed : Nat,
    1 ≤ effectiveDuration elapsed ∧
    ((effectiveDuration elapsed : Rat) ≠ 0) ∧
    Dashboard.init.total_packets = 0 ∧
    Dashboard.init.total_bytes = 0 ∧
    Dashboard.init.protocol_counts = [] ∧
    Dashboard.init.protocol_bytes = [] ∧
    Dashboard.init.connections = [] ∧
    packetsPerSec Dashboard.init elapsed = 0 ∧
    bytesPerSec Dashboard.init elapsed = 0 := by
  intro e
  have h1 : 1 ≤ effectiveDuration e := by
    unfold effectiveDuration
    split <;> omega
  refine ⟨h1, ?_, rfl, rfl, rfl, rfl, rfl, ?_, ?_⟩
  · exact Nat.cast_ne_zero.mpr (by omega)
  · simp [packetsPerSec, Dashboard.init]
  · simp [bytesPerSec, Dashboard.init]

/-- C10.  Frame property of `updatePacket` on the connection map: for
every reachable aggregate state and every record, the call sets the
entry of the record's own connection key to 1 if absent and increments
it by exactly 1 if present, and leaves the count of every other key
unchanged. -/
theorem claim_C10 : ∀ (rs : List PacketInfo) (info : PacketInfo)
    (k : ConnectionInfo),
    mapFind ((recordAll rs).updatePacket info).connections k =
      if k = connKeyOf info
      then some ((mapFind (recordAll rs).connections (connKeyOf info)).getD 0
        + 1)
      else mapFind (recordAll rs).connections k := by
  intro rs info k
  have hA : ∀ x y : ConnectionInfo,
      connLt x y = true → connLt y x = true → False :=
    fun _ _ hxy hyx => connLt_asymm hxy hyx
  have h := mapFind_mapBump hA (connKeyOf info) 1 (sorted_connections rs) k
  simpa [Dashboard.updatePacket] using h

end NetworkAnalyzer
